import Mathlib

/-!
Verification of the telegram-expense-bot message pipeline.

The definitions below are a shallow embedding of the Python source
(`bot.py`, `utils.py`): pure fragments become Lean functions, the
in-memory rate-limiter state becomes explicit state passing, Python
floats become rationals, and the external classification call is an
explicit input to the pipeline function.
-/

namespace ExpenseBot

/-- `RATE_LIMIT_MSGS` from bot.py (default "5"): messages per window. -/
def RATE_LIMIT_MSGS : Nat := 5

/-- `RATE_LIMIT_WINDOW` from bot.py (default "60"): window length in seconds. -/
def RATE_LIMIT_WINDOW : ℚ := 60

/-- `MAX_TEXT_LENGTH` from bot.py. -/
def MAX_TEXT_LENGTH : Nat := 500

/-- `MAX_AMOUNT` from bot.py (1_000_000). -/
def MAX_AMOUNT : ℚ := 1000000

/-- `is_rate_limited` from bot.py, acting on the sender's timestamp list
(`_user_timestamps[user_id]`).  It prunes timestamps `t` with
`t > now - RATE_LIMIT_WINDOW`, rejects when the pruned list already holds
`RATE_LIMIT_MSGS` entries, and otherwise appends `now`.  Returns the
limited flag together with the updated list written back to the dict. -/
def is_rate_limited (timestamps : List ℚ) (now : ℚ) : Bool × List ℚ :=
  let pruned := timestamps.filter (fun t => now - RATE_LIMIT_WINDOW < t)
  if RATE_LIMIT_MSGS ≤ pruned.length then
    (true, pruned)
  else
    (false, pruned ++ [now])

lemma rate_prune_keeps_all {ts : List ℚ} {now : ℚ}
    (h : ∀ t ∈ ts, now - RATE_LIMIT_WINDOW < t) :
    ts.filter (fun t => now - RATE_LIMIT_WINDOW < t) = ts := by
  rw [List.filter_eq_self]
  intro a ha
  exact decide_eq_true (h a ha)

lemma rate_prune_drops_all {ts : List ℚ} {now : ℚ}
    (h : ∀ t ∈ ts, t ≤ now - RATE_LIMIT_WINDOW) :
    ts.filter (fun t => now - RATE_LIMIT_WINDOW < t) = [] := by
  rw [List.filter_eq_nil_iff]
  intro a ha
  simp only [decide_eq_true_eq, not_lt]
  exact h a ha

lemma is_rate_limited_accept {ts : List ℚ} {now : ℚ}
    (h : ∀ t ∈ ts, now - RATE_LIMIT_WINDOW < t)
    (hlen : ts.length < RATE_LIMIT_MSGS) :
    is_rate_limited ts now = (false, ts ++ [now]) := by
  unfold is_rate_limited
  rw [rate_prune_keeps_all h]
  rw [if_neg (by omega)]

lemma is_rate_limited_reject {ts : List ℚ} {now : ℚ}
    (h : ∀ t ∈ ts, now - RATE_LIMIT_WINDOW < t)
    (hlen : RATE_LIMIT_MSGS ≤ ts.length) :
    is_rate_limited ts now = (true, ts) := by
  unfold is_rate_limited
  rw [rate_prune_keeps_all h]
  rw [if_pos hlen]

lemma is_rate_limited_stale {ts : List ℚ} {now : ℚ}
    (h : ∀ t ∈ ts, t ≤ now - RATE_LIMIT_WINDOW) :
    is_rate_limited ts now = (false, [now]) := by
  unfold is_rate_limited
  rw [rate_prune_drops_all h]
  simp [RATE_LIMIT_MSGS]

/-- C3: starting from an empty window, five calls at nondecreasing times
are all accepted and recorded; a sixth call within 60 seconds of the first
is rejected and leaves the window unchanged; a later call more than 60
seconds after the fifth accepted call is accepted again with all stale
timestamps pruned. -/
theorem rate_limiter_scenario (t1 t2 t3 t4 t5 t6 t7 : ℚ)
    (h12 : t1 ≤ t2) (h23 : t2 ≤ t3) (h34 : t3 ≤ t4) (h45 : t4 ≤ t5)
    (h56 : t5 ≤ t6) (hspan : t6 < t1 + 60) (hgap : t5 + 60 < t7) :
    is_rate_limited [] t1 = (false, [t1]) ∧
    is_rate_limited [t1] t2 = (false, [t1, t2]) ∧
    is_rate_limited [t1, t2] t3 = (false, [t1, t2, t3]) ∧
    is_rate_limited [t1, t2, t3] t4 = (false, [t1, t2, t3, t4]) ∧
    is_rate_limited [t1, t2, t3, t4] t5 = (false, [t1, t2, t3, t4, t5]) ∧
    is_rate_limited [t1, t2, t3, t4, t5] t6 = (true, [t1, t2, t3, t4, t5]) ∧
    is_rate_limited [t1, t2, t3, t4, t5] t7 = (false, [t7]) := by
  have hW : RATE_LIMIT_WINDOW = 60 := rfl
  refine ⟨?_, ?_, ?_, ?_, ?_, ?_, ?_⟩
  · exact is_rate_limited_accept (by simp) (by simp [RATE_LIMIT_MSGS])
  · refine is_rate_limited_accept ?_ (by simp [RATE_LIMIT_MSGS])
    intro t ht
    simp only [List.mem_cons, List.not_mem_nil, or_false] at ht
    rw [hW]; subst ht; linarith
  · refine is_rate_limited_accept ?_ (by simp [RATE_LIMIT_MSGS])
    intro t ht
    simp only [List.mem_cons, List.not_mem_nil, or_false] at ht
    rw [hW]; rcases ht with rfl | rfl <;> linarith
  · refine is_rate_limited_accept ?_ (by simp [RATE_LIMIT_MSGS])
    intro t ht
    simp only [List.mem_cons, List.not_mem_nil, or_false] at ht
    rw [hW]; rcases ht with rfl | rfl | rfl <;> linarith
  · refine is_rate_limited_accept ?_ (by simp [RATE_LIMIT_MSGS])
    intro t ht
    simp only [List.mem_cons, List.not_mem_nil, or_false] at ht
    rw [hW]; rcases ht with rfl | rfl | rfl | rfl <;> linarith
  · refine is_rate_limited_reject ?_ (by simp [RATE_LIMIT_MSGS])
    intro t ht
    simp only [List.mem_cons, List.not_mem_nil, or_false] at ht
    rw [hW]; rcases ht with rfl | rfl | rfl | rfl | rfl <;> linarith
  · refine is_rate_limited_stale ?_
    intro t ht
    simp only [List.mem_cons, List.not_mem_nil, or_false] at ht
    rw [hW]; rcases ht with rfl | rfl | rfl | rfl | rfl <;> linarith

/-- C3 witness: the scenario instantiated at concrete call times
0, 10, 20, 30, 40 (accepted), 50 (rejected) and 120 (accepted again). -/
theorem rate_limiter_scenario_witness :
    is_rate_limited [] 0 = (false, [0]) ∧
    is_rate_limited [0] 10 = (false, [0, 10]) ∧
    is_rate_limited [0, 10] 20 = (false, [0, 10, 20]) ∧
    is_rate_limited [0, 10, 20] 30 = (false, [0, 10, 20, 30]) ∧
    is_rate_limited [0, 10, 20, 30] 40 = (false, [0, 10, 20, 30, 40]) ∧
    is_rate_limited [0, 10, 20, 30, 40] 50 = (true, [0, 10, 20, 30, 40]) ∧
    is_rate_limited [0, 10, 20, 30, 40] 120 = (false, [120]) :=
  rate_limiter_scenario 0 10 20 30 40 50 120
    (by norm_num) (by norm_num) (by norm_num) (by norm_num) (by norm_num)
    (by norm_num) (by norm_num)

/-- C10: a rejected rate-limiter call only prunes stale timestamps and
adds nothing, so the surviving window is exactly the in-window part of
the old one; consequently, after a rejection, any call made more than
60 seconds after every recorded timestamp is accepted. -/
theorem rate_limiter_reject_preserves_window (ts : List ℚ) (now : ℚ)
    (h : (is_rate_limited ts now).1 = true) :
    (is_rate_limited ts now).2 =
      ts.filter (fun t => now - RATE_LIMIT_WINDOW < t) ∧
    (∀ T now2 : ℚ, (∀ t ∈ ts, t ≤ T) → T + RATE_LIMIT_WINDOW < now2 →
      (is_rate_limited (is_rate_limited ts now).2 now2).1 = false) := by
  have hsnd : (is_rate_limited ts now).2 =
      ts.filter (fun t => now - RATE_LIMIT_WINDOW < t) := by
    unfold is_rate_limited at h ⊢
    by_cases hc : RATE_LIMIT_MSGS ≤
        (ts.filter (fun t => now - RATE_LIMIT_WINDOW < t)).length
    · simp [hc]
    · simp [hc] at h
  refine ⟨hsnd, ?_⟩
  intro T now2 hT hgap
  rw [hsnd]
  rw [is_rate_limited_stale ?_]
  intro t ht
  have := hT t (List.mem_of_mem_filter ht)
  linarith

/-- C10 witness: a full window [0,10,20,30,40] rejects a call at time 50,
keeps exactly the in-window timestamps, and accepts at time 101. -/
theorem rate_limiter_reject_preserves_window_witness :
    (is_rate_limited [0, 10, 20, 30, 40] 50).1 = true ∧
    (is_rate_limited [0, 10, 20, 30, 40] 50).2 =
      ([0, 10, 20, 30, 40] : List ℚ).filter
        (fun t => 50 - RATE_LIMIT_WINDOW < t) ∧
    (is_rate_limited (is_rate_limited [0, 10, 20, 30, 40] 50).2 101).1
      = false := by
  have hW : RATE_LIMIT_WINDOW = (60 : ℚ) := rfl
  have hmem : ∀ t ∈ ([0, 10, 20, 30, 40] : List ℚ),
      (50 : ℚ) - RATE_LIMIT_WINDOW < t := by
    intro t ht
    simp only [List.mem_cons, List.not_mem_nil, or_false] at ht
    rw [hW]; rcases ht with rfl | rfl | rfl | rfl | rfl <;> norm_num
  have h1 : is_rate_limited ([0, 10, 20, 30, 40] : List ℚ) 50 =
      (true, [0, 10, 20, 30, 40]) :=
    is_rate_limited_reject hmem (by simp [RATE_LIMIT_MSGS])
  have hfst : (is_rate_limited ([0, 10, 20, 30, 40] : List ℚ) 50).1 = true := by
    rw [h1]
  have h := rate_limiter_reject_preserves_window [0, 10, 20, 30, 40] 50 hfst
  refine ⟨hfst, h.1, h.2 40 101 ?_ ?_⟩
  · intro t ht
    simp only [List.mem_cons, List.not_mem_nil, or_false] at ht
    rcases ht with rfl | rfl | rfl | rfl | rfl <;> norm_num
  · rw [hW]; norm_num

/-- `CATEGORY_EMOJI` from utils.py: the fixed category enumeration with
its display emojis. -/
def CATEGORY_EMOJI : List (String × String) :=
  [("alimentacao", "🍔"), ("transporte", "🚗"), ("saude", "💊"),
   ("lazer", "🎮"), ("casa", "🏠"), ("salario", "💼"),
   ("freelance", "💻"), ("investimento", "📈"), ("outros", "📦")]

/-- The category enumeration (the keys of `CATEGORY_EMOJI`). -/
def CATEGORIES : List String := CATEGORY_EMOJI.map Prod.fst

/-- The JSON `amount` field as received from the classification call:
absent (`null`), a value `float()` accepts, or a value on which
`float()` raises `ValueError`/`TypeError`. -/
inductive AmountField where
  | absent
  | number (q : ℚ)
  | unparsable
deriving DecidableEq

/-- The JSON object returned by `extract_expense` in bot.py: each field
is optional because the model may omit it (`obj.get`). -/
structure LLMObj where
  amount : AmountField
  jtype : Option String
  currency : Option String
  category : Option String
  description : Option String
  confidence : Option ℚ
deriving DecidableEq

/-- The object after the amount-validation block of `on_text` in bot.py
has run: `amount` is now `null` or an in-range number. -/
structure VObj where
  amount : Option ℚ
  jtype : Option String
  currency : Option String
  category : Option String
  description : Option String
  confidence : Option ℚ
deriving DecidableEq

/-- The amount-validation block of `on_text` (bot.py): when the amount is
present, parse it; on parse failure, or a parsed value `≤ 0` or
`> MAX_AMOUNT`, set `amount = None` and `confidence = 0`; otherwise keep
the parsed amount.  An absent amount skips the whole block. -/
def validate_amount (obj : LLMObj) : VObj :=
  match obj.amount with
  | .absent =>
      ⟨none, obj.jtype, obj.currency, obj.category, obj.description,
        obj.confidence⟩
  | .unparsable =>
      ⟨none, obj.jtype, obj.currency, obj.category, obj.description, some 0⟩
  | .number q =>
      if q ≤ 0 ∨ MAX_AMOUNT < q then
        ⟨none, obj.jtype, obj.currency, obj.category, obj.description, some 0⟩
      else
        ⟨some q, obj.jtype, obj.currency, obj.category, obj.description,
          obj.confidence⟩

/-- Python `str.strip()`: drop leading and trailing whitespace. -/
def pyStrip (s : String) : String :=
  String.mk
    (((s.data.dropWhile Char.isWhitespace).reverse.dropWhile
      Char.isWhitespace).reverse)

/-- Python `x or default` for an optional string field: `None` and the
empty string are falsy and give the default. -/
def pyOrStr (x : Option String) (default : String) : String :=
  match x with
  | none => default
  | some s => if s = "" then default else s

/-- The replies `on_text`/`format_reply` can produce, one constructor per
distinct message template of the source, carrying the interpolated
values. -/
inductive ReplyMsg where
  | notUnderstood
  | registered (income : Bool) (amount : ℚ) (category description : String)
  | rateLimited
  | tooLong (nChars limit : Nat)
  | groqError (status : Nat) (excerpt : String)
  | genericError (ename emsg : String)
deriving DecidableEq

/-- `format_reply` from utils.py on the validated object: a "not
understood" message when `amount` is `None`, otherwise the income or
expense "registered" template with the amount, category (default
"outros") and description (default "Gasto"/"Ganho"). -/
def format_reply (obj : VObj) : ReplyMsg :=
  let category := obj.category.getD "outros"
  let entry_type := obj.jtype.getD "expense"
  let d0 := pyStrip (obj.description.getD "")
  let desc :=
    if d0 = "" then (if entry_type = "expense" then "Gasto" else "Ganho")
    else d0
  match obj.amount with
  | none => .notUnderstood
  | some a =>
      if entry_type = "income" then .registered true a category desc
      else .registered false a category desc

/-- The row `insert_expense` (db.py) writes: one persisted Entry. -/
structure Entry where
  user_id : String
  chat_id : String
  raw_text : String
  amount : ℚ
  currency : String
  category : String
  description : String
  confidence : ℚ
  entry_type : String
deriving DecidableEq

/-- The `entry_type` normalization in `on_text`: default "expense", and
anything outside {"expense", "income"} becomes "expense". -/
def normalize_type (t : Option String) : String :=
  let et := t.getD "expense"
  if et = "expense" ∨ et = "income" then et else "expense"

/-- The `insert_expense(...)` call in `on_text` (bot.py): the Entry built
from the validated object and a validated amount `a`. -/
def mkEntry (uid chatId : ℤ) (raw : String) (v : VObj) (a : ℚ) : Entry :=
  { user_id := toString uid
    chat_id := toString chatId
    raw_text := raw
    amount := a
    currency := pyOrStr v.currency "BRL"
    category := pyOrStr v.category "outros"
    description := pyOrStr v.description ""
    confidence := v.confidence.getD 0
    entry_type := normalize_type v.jtype }

/-- `is_allowed` from bot.py: `ALLOWED_USERS is None` (unset env) admits
everyone, otherwise membership in the configured set. -/
def is_allowed (allowedUsers : Option (List ℤ)) (uid : ℤ) : Bool :=
  match allowedUsers with
  | none => true
  | some s => uid ∈ s

/-- The outcome of the `extract_expense` call as observed by `on_text`:
a parsed JSON object, an `httpx.HTTPStatusError` (status plus response
body), or any other exception (name plus message). -/
inductive LLMResult where
  | ok (obj : LLMObj)
  | httpStatusError (status : Nat) (body : String)
  | otherError (ename emsg : String)
deriving DecidableEq

/-- Everything observable about one `on_text` run: the reply sent (if
any), the Entries inserted, how many times the classification capability
was invoked, whether the rate limiter was consulted, and the sender's
rate window afterwards. -/
structure MsgOutcome where
  reply : Option ReplyMsg
  inserted : List Entry
  llmCalls : Nat
  rateConsulted : Bool
  window : List ℚ
deriving DecidableEq

/-- `on_text` from bot.py as a function of the configuration, the
sender's rate window, the clock, the message, and the result of the
classification call: empty text returns silently; a sender outside the
allowlist is dropped silently; a rate-limited sender gets the "slow
down" reply; over-long text gets the length reply; otherwise the
classification result is validated, at most one Entry is inserted, and
`format_reply` (or the error template) is sent. -/
def on_text (allowedUsers : Option (List ℤ)) (window : List ℚ) (now : ℚ)
    (uid chatId : ℤ) (textIn : String) (llm : LLMResult) : MsgOutcome :=
  if pyStrip textIn = "" then
    { reply := none, inserted := [], llmCalls := 0, rateConsulted := false,
      window := window }
  else if is_allowed allowedUsers uid = false then
    { reply := none, inserted := [], llmCalls := 0, rateConsulted := false,
      window := window }
  else
    if (is_rate_limited window now).1 then
      { reply := some .rateLimited, inserted := [], llmCalls := 0,
        rateConsulted := true, window := (is_rate_limited window now).2 }
    else if MAX_TEXT_LENGTH < textIn.length then
      { reply := some (.tooLong textIn.length MAX_TEXT_LENGTH),
        inserted := [], llmCalls := 0, rateConsulted := true,
        window := (is_rate_limited window now).2 }
    else
      match llm with
      | .httpStatusError st body =>
          { reply := some (.groqError st (body.take 300)), inserted := [],
            llmCalls := 1, rateConsulted := true,
            window := (is_rate_limited window now).2 }
      | .otherError en em =>
          { reply := some (.genericError en em), inserted := [],
            llmCalls := 1, rateConsulted := true,
            window := (is_rate_limited window now).2 }
      | .ok obj =>
          match (validate_amount obj).amount with
          | some a =>
              { reply := some (format_reply (validate_amount obj)),
                inserted := [mkEntry uid chatId textIn (validate_amount obj) a],
                llmCalls := 1, rateConsulted := true,
                window := (is_rate_limited window now).2 }
          | none =>
              { reply := some (format_reply (validate_amount obj)),
                inserted := [], llmCalls := 1, rateConsulted := true,
                window := (is_rate_limited window now).2 }

lemma validate_amount_pos {obj : LLMObj} {a : ℚ}
    (h : obj.amount = .number a) (h0 : 0 < a) (hM : a ≤ MAX_AMOUNT) :
    validate_amount obj =
      ⟨some a, obj.jtype, obj.currency, obj.category, obj.description,
        obj.confidence⟩ := by
  have hbad : ¬ (a ≤ 0 ∨ MAX_AMOUNT < a) := by
    push_neg
    exact ⟨h0, hM⟩
  simp only [validate_amount, h, if_neg hbad]

lemma validate_amount_out_of_range {obj : LLMObj} {a : ℚ}
    (h : obj.amount = .number a) (hbad : a ≤ 0 ∨ MAX_AMOUNT < a) :
    validate_amount obj =
      ⟨none, obj.jtype, obj.currency, obj.category, obj.description,
        some 0⟩ := by
  simp only [validate_amount, h, if_pos hbad]

lemma validate_amount_absent {obj : LLMObj} (h : obj.amount = .absent) :
    validate_amount obj =
      ⟨none, obj.jtype, obj.currency, obj.category, obj.description,
        obj.confidence⟩ := by
  simp only [validate_amount, h]

lemma validate_amount_unparsable {obj : LLMObj}
    (h : obj.amount = .unparsable) :
    validate_amount obj =
      ⟨none, obj.jtype, obj.currency, obj.category, obj.description,
        some 0⟩ := by
  simp only [validate_amount, h]

lemma format_reply_none {v : VObj} (h : v.amount = none) :
    format_reply v = .notUnderstood := by
  simp only [format_reply, h]

lemma on_text_classified (allowedUsers : Option (List ℤ)) (window : List ℚ)
    (now : ℚ) (uid chatId : ℤ) (textIn : String) (obj : LLMObj)
    (hne : ¬ pyStrip textIn = "") (hall : is_allowed allowedUsers uid = true)
    (hlim : (is_rate_limited window now).1 = false)
    (hlen : textIn.length ≤ MAX_TEXT_LENGTH) :
    on_text allowedUsers window now uid chatId textIn (.ok obj) =
      match (validate_amount obj).amount with
      | some a =>
          { reply := some (format_reply (validate_amount obj)),
            inserted := [mkEntry uid chatId textIn (validate_amount obj) a],
            llmCalls := 1, rateConsulted := true,
            window := (is_rate_limited window now).2 }
      | none =>
          { reply := some (format_reply (validate_amount obj)),
            inserted := [], llmCalls := 1, rateConsulted := true,
            window := (is_rate_limited window now).2 } := by
  unfold on_text
  rw [if_neg hne, if_neg (by simp [hall]), if_neg (by simp [hlim]),
    if_neg (not_lt.mpr hlen)]

/-- C9: a message whose text is empty or all whitespace short-circuits the
pipeline: no reply, no Entry, no classification call, and the sender's
rate window is neither consulted nor modified — for every allowlist
configuration and sender, including senders outside the allowlist. -/
theorem empty_text_short_circuit (allowedUsers : Option (List ℤ))
    (window : List ℚ) (now : ℚ) (uid chatId : ℤ) (textIn : String)
    (llm : LLMResult) (h : pyStrip textIn = "") :
    on_text allowedUsers window now uid chatId textIn llm =
      { reply := none, inserted := [], llmCalls := 0,
        rateConsulted := false, window := window } := by
  unfold on_text
  rw [if_pos h]

/-- C9 witness: a whitespace-only message from a sender outside the
allowlist, with a nonempty rate window, is dropped with nothing touched. -/
theorem empty_text_short_circuit_witness :
    (pyStrip "  " = "") ∧
    on_text (some [42]) [3] 5 7 9 "  " (.otherError "Boom" "x") =
      { reply := none, inserted := [], llmCalls := 0,
        rateConsulted := false, window := [3] } :=
  ⟨by decide, empty_text_short_circuit (some [42]) [3] 5 7 9 "  "
    (.otherError "Boom" "x") (by decide)⟩

/-- C4: for nonempty text the guards run allowlist → rate limit → length:
a disallowed sender is dropped silently with the rate limiter never
consulted; an allowed but rate-limited sender gets the visible "slow
down" reply; an allowed, unlimited sender with over-long text gets the
visible length reply stating the limit; in all three cases no Entry is
written and the classification capability is never called. -/
theorem guard_ordering (allowedUsers : Option (List ℤ)) (window : List ℚ)
    (now : ℚ) (uid chatId : ℤ) (textIn : String) (llm : LLMResult)
    (hne : ¬ pyStrip textIn = "") :
    (is_allowed allowedUsers uid = false →
      on_text allowedUsers window now uid chatId textIn llm =
        { reply := none, inserted := [], llmCalls := 0,
          rateConsulted := false, window := window }) ∧
    (is_allowed allowedUsers uid = true →
      (is_rate_limited window now).1 = true →
      on_text allowedUsers window now uid chatId textIn llm =
        { reply := some .rateLimited, inserted := [], llmCalls := 0,
          rateConsulted := true,
          window := (is_rate_limited window now).2 }) ∧
    (is_allowed allowedUsers uid = true →
      (is_rate_limited window now).1 = false →
      MAX_TEXT_LENGTH < textIn.length →
      on_text allowedUsers window now uid chatId textIn llm =
        { reply := some (.tooLong textIn.length MAX_TEXT_LENGTH),
          inserted := [], llmCalls := 0, rateConsulted := true,
          window := (is_rate_limited window now).2 }) := by
  refine ⟨?_, ?_, ?_⟩
  · intro hall
    unfold on_text
    rw [if_neg hne, if_pos hall]
  · intro hall hlim
    unfold on_text
    rw [if_neg hne, if_neg (by simp [hall]), if_pos hlim]
  · intro hall hlim hlen
    unfold on_text
    rw [if_neg hne, if_neg (by simp [hall]), if_neg (by simp [hlim]),
      if_pos hlen]

/-- C4 witness: with allowlist {42}, a message from sender 7 is silently
dropped: no reply, no Entry, no classification call, rate limiter
untouched. -/
theorem guard_ordering_witness :
    (pyStrip "oi" ≠ "") ∧ is_allowed (some [42]) 7 = false ∧
    on_text (some [42]) [] 0 7 9 "oi" (.otherError "Boom" "x") =
      { reply := none, inserted := [], llmCalls := 0,
        rateConsulted := false, window := [] } :=
  ⟨by decide, by decide,
    (guard_ordering (some [42]) [] 0 7 9 "oi" (.otherError "Boom" "x")
      (by decide)).1 (by decide)⟩

/-- C6: when the classification call raises an HTTP status error, the
reply is the distinct Groq-error template carrying the status code and
the first 300 characters of the error body, no Entry is written, and the
classification capability was invoked exactly once (no retry); any other
exception yields the generic failure reply, also with no Entry. -/
theorem classification_failure_outcomes (allowedUsers : Option (List ℤ))
    (window : List ℚ) (now : ℚ) (uid chatId : ℤ) (textIn : String)
    (hne : ¬ pyStrip textIn = "") (hall : is_allowed allowedUsers uid = true)
    (hlim : (is_rate_limited window now).1 = false)
    (hlen : textIn.length ≤ MAX_TEXT_LENGTH) :
    (∀ st : Nat, ∀ body : String,
      on_text allowedUsers window now uid chatId textIn
          (.httpStatusError st body) =
        { reply := some (.groqError st (body.take 300)), inserted := [],
          llmCalls := 1, rateConsulted := true,
          window := (is_rate_limited window now).2 }) ∧
    (∀ en em : String,
      on_text allowedUsers window now uid chatId textIn
          (.otherError en em) =
        { reply := some (.genericError en em), inserted := [],
          llmCalls := 1, rateConsulted := true,
          window := (is_rate_limited window now).2 }) := by
  constructor
  · intro st body
    unfold on_text
    rw [if_neg hne, if_neg (by simp [hall]), if_neg (by simp [hlim]),
      if_neg (not_lt.mpr hlen)]
  · intro en em
    unfold on_text
    rw [if_neg hne, if_neg (by simp [hall]), if_neg (by simp [hlim]),
      if_neg (not_lt.mpr hlen)]

/-- C6 witness: an unrestricted sender with a fresh window sending "oi",
with the upstream returning HTTP 500 and body "boom", gets the
Groq-error reply with status 500 and excerpt "boom", and no Entry. -/
theorem classification_failure_outcomes_witness :
    on_text none [] 0 1 2 "oi" (.httpStatusError 500 "boom") =
      { reply := some (.groqError 500 ("boom".take 300)), inserted := [],
        llmCalls := 1, rateConsulted := true,
        window := (is_rate_limited [] 0).2 } :=
  (classification_failure_outcomes none [] 0 1 2 "oi"
    (by decide) rfl rfl (by decide)).1 500 "boom"

/-- C1 counterexample: a classification result with an absent amount and
confidence 1/2 keeps its confidence — the validation block only forces
`confidence = 0` when a present amount is unparsable or out of range, so
the claim that an absent amount also has confidence forced to 0 is
false. -/
theorem absent_amount_keeps_confidence :
    ({ amount := .absent, jtype := none, currency := none, category := none,
       description := none, confidence := some (1/2) } : LLMObj).amount =
      AmountField.absent ∧
    (validate_amount
      { amount := .absent, jtype := none, currency := none, category := none,
        description := none, confidence := some (1/2) }).confidence =
      some (1/2) ∧
    (1 : ℚ)/2 ≠ 0 := by
  refine ⟨rfl, ?_, by norm_num⟩
  rw [validate_amount_absent rfl]

/-- C1 (amended): with all guards passed, a classification result whose
amount is a positive number `a ≤ MAX_AMOUNT` leads to exactly one Entry
with that amount unchanged; an absent, unparsable, non-positive or
over-ceiling amount leads to no Entry, a null validated amount and the
"not understood" reply; confidence is forced to 0 in the unparsable,
non-positive and over-ceiling cases (an absent amount skips the
validation block, leaving confidence unchanged). -/
theorem amount_validation_amended (allowedUsers : Option (List ℤ))
    (window : List ℚ) (now : ℚ) (uid chatId : ℤ) (textIn : String)
    (obj : LLMObj)
    (hne : ¬ pyStrip textIn = "") (hall : is_allowed allowedUsers uid = true)
    (hlim : (is_rate_limited window now).1 = false)
    (hlen : textIn.length ≤ MAX_TEXT_LENGTH) :
    (∀ a : ℚ, obj.amount = .number a → 0 < a → a ≤ MAX_AMOUNT →
      (on_text allowedUsers window now uid chatId textIn
          (.ok obj)).inserted =
        [mkEntry uid chatId textIn (validate_amount obj) a] ∧
      (mkEntry uid chatId textIn (validate_amount obj) a).amount = a) ∧
    ((obj.amount = .absent ∨ obj.amount = .unparsable ∨
        (∃ a, obj.amount = .number a ∧ (a ≤ 0 ∨ MAX_AMOUNT < a))) →
      (on_text allowedUsers window now uid chatId textIn
          (.ok obj)).inserted = [] ∧
      (validate_amount obj).amount = none ∧
      (on_text allowedUsers window now uid chatId textIn (.ok obj)).reply =
        some .notUnderstood) ∧
    ((obj.amount = .unparsable ∨
        (∃ a, obj.amount = .number a ∧ (a ≤ 0 ∨ MAX_AMOUNT < a))) →
      (validate_amount obj).confidence = some 0) := by
  have hstep := on_text_classified allowedUsers window now uid chatId
    textIn obj hne hall hlim hlen
  refine ⟨?_, ?_, ?_⟩
  · intro a hamt h0 hM
    rw [hstep, validate_amount_pos hamt h0 hM]
    exact ⟨rfl, rfl⟩
  · intro hbad
    have hvnone : (validate_amount obj).amount = none := by
      rcases hbad with h | h | ⟨a, hamt, hout⟩
      · rw [validate_amount_absent h]
      · rw [validate_amount_unparsable h]
      · rw [validate_amount_out_of_range hamt hout]
    rw [hstep, hvnone]
    exact ⟨rfl, rfl, by rw [format_reply_none hvnone]⟩
  · intro hbad
    rcases hbad with h | ⟨a, hamt, hout⟩
    · rw [validate_amount_unparsable h]
    · rw [validate_amount_out_of_range hamt hout]

/-- C1 witness: an unrestricted sender, fresh window, text "gastei 50 no
uber" classified with amount 50: exactly one Entry with amount 50; and
the same pipeline on the same text with amount 2000000 (over the
ceiling): no Entry, null amount, confidence 0, "not understood" reply. -/
theorem amount_validation_amended_witness :
    (0 : ℚ) < 50 ∧ (50 : ℚ) ≤ MAX_AMOUNT ∧
    (on_text none [] 0 1 2 "gastei 50 no uber"
        (.ok { amount := .number 50, jtype := some "expense",
               currency := some "BRL", category := some "transporte",
               description := some "uber", confidence := some (9/10) })).inserted =
      [mkEntry 1 2 "gastei 50 no uber"
        (validate_amount
          { amount := .number 50, jtype := some "expense",
            currency := some "BRL", category := some "transporte",
            description := some "uber", confidence := some (9/10) }) 50] ∧
    (on_text none [] 0 1 2 "gastei 50 no uber"
        (.ok { amount := .number 2000000, jtype := some "expense",
               currency := some "BRL", category := some "transporte",
               description := some "uber", confidence := some (9/10) })).inserted =
      [] ∧
    (on_text none [] 0 1 2 "gastei 50 no uber"
        (.ok { amount := .number 2000000, jtype := some "expense",
               currency := some "BRL", category := some "transporte",
               description := some "uber", confidence := some (9/10) })).reply =
      some .notUnderstood ∧
    (validate_amount
      { amount := .number 2000000, jtype := some "expense",
        currency := some "BRL", category := some "transporte",
        description := some "uber", confidence := some (9/10) }).confidence =
      some 0 := by
  have hMv : (50 : ℚ) ≤ MAX_AMOUNT := by norm_num [MAX_AMOUNT]
  have hover : (2000000 : ℚ) ≤ 0 ∨ MAX_AMOUNT < 2000000 := by
    right
    norm_num [MAX_AMOUNT]
  have hgood := (amount_validation_amended none [] 0 1 2 "gastei 50 no uber"
    { amount := .number 50, jtype := some "expense",
      currency := some "BRL", category := some "transporte",
      description := some "uber", confidence := some (9/10) }
    (by decide) rfl rfl (by decide)).1 50 rfl (by norm_num) hMv
  have hb := amount_validation_amended none [] 0 1 2 "gastei 50 no uber"
    { amount := .number 2000000, jtype := some "expense",
      currency := some "BRL", category := some "transporte",
      description := some "uber", confidence := some (9/10) }
    (by decide) rfl rfl (by decide)
  have hbad := hb.2.1 (Or.inr (Or.inr ⟨2000000, rfl, hover⟩))
  have hconf := hb.2.2 (Or.inr ⟨2000000, rfl, hover⟩)
  exact ⟨by norm_num, hMv, hgood.1, hbad.1, hbad.2.2, hconf⟩

/-- C2 counterexample: a classification result with the valid amount 50
and the category "pets" — outside the fixed enumeration and neither
absent nor empty — persists an Entry whose category is "pets", not
"outros". -/
theorem unknown_category_stored_verbatim :
    ((on_text none [] 0 1 2 "gastei 50 com pets"
        (.ok { amount := .number 50, jtype := some "expense",
               currency := some "BRL", category := some "pets",
               description := some "racao", confidence := some (9/10)
             })).inserted.map Entry.category) = ["pets"] ∧
    "pets" ∉ CATEGORIES ∧ ("pets" : String) ≠ "outros" := by
  refine ⟨?_, by decide, by decide⟩
  rw [on_text_classified none [] 0 1 2 "gastei 50 com pets"
    { amount := .number 50, jtype := some "expense",
      currency := some "BRL", category := some "pets",
      description := some "racao", confidence := some (9/10) }
    (by decide) rfl rfl (by decide)]
  rw [validate_amount_pos rfl (by norm_num) (by norm_num [MAX_AMOUNT])]
  rfl

/-- C2 (amended): for a classification result with a valid amount, the
persisted category is the input category taken verbatim whenever it is a
non-empty string — membership in the fixed enumeration is not enforced —
and only an absent or empty category is replaced by "outros". -/
theorem category_default_only (allowedUsers : Option (List ℤ))
    (window : List ℚ) (now : ℚ) (uid chatId : ℤ) (textIn : String)
    (obj : LLMObj) (a : ℚ)
    (hne : ¬ pyStrip textIn = "") (hall : is_allowed allowedUsers uid = true)
    (hlim : (is_rate_limited window now).1 = false)
    (hlen : textIn.length ≤ MAX_TEXT_LENGTH)
    (hamt : obj.amount = .number a) (h0 : 0 < a) (hM : a ≤ MAX_AMOUNT) :
    (on_text allowedUsers window now uid chatId textIn (.ok obj)).inserted =
      [mkEntry uid chatId textIn (validate_amount obj) a] ∧
    (mkEntry uid chatId textIn (validate_amount obj) a).category =
      pyOrStr obj.category "outros" ∧
    (∀ c : String, obj.category = some c → c ≠ "" →
      (mkEntry uid chatId textIn (validate_amount obj) a).category = c) := by
  have hstep := on_text_classified allowedUsers window now uid chatId
    textIn obj hne hall hlim hlen
  have hv := validate_amount_pos hamt h0 hM
  refine ⟨?_, ?_, ?_⟩
  · rw [hstep, hv]
  · rw [hv]
    rfl
  · intro c hc hc0
    rw [hv]
    simp [mkEntry, pyOrStr, hc, hc0]

/-- C2 witness: with category "casa" (a member of the enumeration) and
amount 50, the persisted Entry's category is "casa" verbatim. -/
theorem category_default_only_witness :
    (on_text none [] 0 1 2 "paguei 50 de conta de luz"
        (.ok { amount := .number 50, jtype := some "expense",
               currency := some "BRL", category := some "casa",
               description := some "conta de luz",
               confidence := some (9/10) })).inserted =
      [mkEntry 1 2 "paguei 50 de conta de luz"
        (validate_amount
          { amount := .number 50, jtype := some "expense",
            currency := some "BRL", category := some "casa",
            description := some "conta de luz",
            confidence := some (9/10) }) 50] ∧
    (mkEntry 1 2 "paguei 50 de conta de luz"
      (validate_amount
        { amount := .number 50, jtype := some "expense",
          currency := some "BRL", category := some "casa",
          description := some "conta de luz",
          confidence := some (9/10) }) 50).category = "casa" := by
  have h := category_default_only none [] 0 1 2 "paguei 50 de conta de luz"
    { amount := .number 50, jtype := some "expense",
      currency := some "BRL", category := some "casa",
      description := some "conta de luz", confidence := some (9/10) } 50
    (by decide) rfl rfl (by decide) rfl (by norm_num)
    (by norm_num [MAX_AMOUNT])
  exact ⟨h.1, h.2.2 "casa" rfl (by decide)⟩

/-- A wall-clock local datetime as utils.py manipulates it: a calendar
day index (days since a fixed Monday, so `weekday = day % 7` as in
Python's `datetime.weekday()` with Monday = 0) plus a time of day. -/
structure PyDateTime where
  day : ℤ
  hour : ℤ
  minute : ℤ
  second : ℤ
  microsecond : ℤ
deriving DecidableEq

/-- `d.replace(hour=0, minute=0, second=0, microsecond=0)` in utils.py. -/
def replaceMidnight (d : PyDateTime) : PyDateTime :=
  { day := d.day, hour := 0, minute := 0, second := 0, microsecond := 0 }

/-- `d + timedelta(days=n)` on a wall-clock datetime. -/
def addDays (d : PyDateTime) (n : ℤ) : PyDateTime :=
  { d with day := d.day + n }

/-- Python `datetime.weekday()`: Monday is 0 … Sunday is 6. -/
def pyWeekday (d : PyDateTime) : ℤ := d.day % 7

/-- The datetime as a number of microseconds on the wall-clock timeline. -/
def toMicros (d : PyDateTime) : ℤ :=
  (((d.day * 24 + d.hour) * 60 + d.minute) * 60 + d.second) * 1000000 +
    d.microsecond

/-- A datetime whose time-of-day fields are within their calendar
bounds. -/
def validTime (d : PyDateTime) : Prop :=
  0 ≤ d.hour ∧ d.hour < 24 ∧ 0 ≤ d.minute ∧ d.minute < 60 ∧
  0 ≤ d.second ∧ d.second < 60 ∧ 0 ≤ d.microsecond ∧ d.microsecond < 1000000

/-- `day_range_local` from utils.py: midnight of `d`'s date to one day
later. -/
def day_range_local (d : PyDateTime) : PyDateTime × PyDateTime :=
  let start := replaceMidnight d
  (start, addDays start 1)

/-- `week_range_local` from utils.py: midnight of `d`'s date minus
`d.weekday()` days, to seven days later. -/
def week_range_local (d : PyDateTime) : PyDateTime × PyDateTime :=
  let start := addDays (replaceMidnight d) (-(pyWeekday d))
  (start, addDays start 7)

/-- C5: for any valid local datetime `d`, `day_range_local d` is the
half-open interval from local midnight of `d`'s date (containing `d`) to
exactly 24 hours later, and `week_range_local d` starts at local
midnight of the Monday on or before `d` (weekday 0, at most 6 days
back, not after `d`) and ends exactly 7 days later. -/
theorem day_week_ranges (d : PyDateTime) (h : validTime d) :
    (day_range_local d).1 = replaceMidnight d ∧
    (day_range_local d).1.day = d.day ∧
    toMicros (day_range_local d).1 ≤ toMicros d ∧
    toMicros d < toMicros (day_range_local d).2 ∧
    toMicros (day_range_local d).2 - toMicros (day_range_local d).1 =
      86400000000 ∧
    pyWeekday (week_range_local d).1 = 0 ∧
    (week_range_local d).1 = replaceMidnight (week_range_local d).1 ∧
    (week_range_local d).1.day ≤ d.day ∧
    d.day - (week_range_local d).1.day < 7 ∧
    toMicros (week_range_local d).1 ≤ toMicros d ∧
    toMicros (week_range_local d).2 - toMicros (week_range_local d).1 =
      7 * 86400000000 := by
  obtain ⟨h1, h2, h3, h4, h5, h6, h7, h8⟩ := h
  have hw0 : 0 ≤ d.day % 7 := Int.emod_nonneg d.day (by norm_num)
  have hw7 : d.day % 7 < 7 := Int.emod_lt_of_pos d.day (by norm_num)
  refine ⟨rfl, rfl, ?_, ?_, ?_, ?_, rfl, ?_, ?_, ?_, ?_⟩
  · simp only [day_range_local, replaceMidnight, toMicros]
    nlinarith
  · simp only [day_range_local, replaceMidnight, addDays, toMicros]
    nlinarith
  · simp only [day_range_local, replaceMidnight, addDays, toMicros]
    ring
  · simp only [week_range_local, replaceMidnight, addDays, pyWeekday]
    omega
  · simp only [week_range_local, replaceMidnight, addDays, pyWeekday]
    omega
  · simp only [week_range_local, replaceMidnight, addDays, pyWeekday]
    omega
  · simp only [week_range_local, replaceMidnight, addDays, pyWeekday,
      toMicros]
    nlinarith
  · simp only [week_range_local, replaceMidnight, addDays, toMicros]
    ring

/-- C5 witness: the theorem instantiated at a concrete Wednesday
afternoon (day 9 with the epoch Monday convention, 15:30:00). -/
theorem day_week_ranges_witness :
    validTime ⟨9, 15, 30, 0, 0⟩ ∧
    (day_range_local ⟨9, 15, 30, 0, 0⟩).1 =
      replaceMidnight ⟨9, 15, 30, 0, 0⟩ ∧
    toMicros (day_range_local ⟨9, 15, 30, 0, 0⟩).2 -
      toMicros (day_range_local ⟨9, 15, 30, 0, 0⟩).1 = 86400000000 ∧
    pyWeekday (week_range_local ⟨9, 15, 30, 0, 0⟩).1 = 0 ∧
    (week_range_local ⟨9, 15, 30, 0, 0⟩).1.day ≤ 9 ∧
    toMicros (week_range_local ⟨9, 15, 30, 0, 0⟩).2 -
      toMicros (week_range_local ⟨9, 15, 30, 0, 0⟩).1 = 7 * 86400000000 := by
  have hv : validTime ⟨9, 15, 30, 0, 0⟩ := by
    refine ⟨by norm_num, by norm_num, by norm_num, by norm_num,
      by norm_num, by norm_num, by norm_num, by norm_num⟩
  have h := day_week_ranges ⟨9, 15, 30, 0, 0⟩ hv
  obtain ⟨c1, c2, c3, c4, c5, c6, c7, c8, c9, c10, c11⟩ := h
  exact ⟨hv, c1, c5, c6, c8, c11⟩

/-- The `totals_by_day` dict of `build_daily_chart_png` (bot.py): day to
total, later rows overwriting earlier ones, missing days defaulting to
0.0 (`totals_by_day.get(cur, 0.0)`). -/
def totalsByDayLookup (rows : List (ℤ × ℚ)) (d : ℤ) : ℚ :=
  (List.lookup d rows.reverse).getD 0

/-- One iteration per remaining day of the `while cur <= end.date()` loop
of `build_daily_chart_png`. -/
def buildSeriesAux (rows : List (ℤ × ℚ)) (startDay : ℤ) :
    Nat → List (ℤ × ℚ)
  | 0 => []
  | n + 1 =>
      (startDay, totalsByDayLookup rows startDay) ::
        buildSeriesAux rows (startDay + 1) n

/-- The gap-filling loop of `build_daily_chart_png` (bot.py): the zipped
`(x_all, y_all)` series, one point per calendar day from `startDay` to
`endDay` inclusive, each day's value looked up in the sparse totals with
default 0.0. -/
def build_daily_series (rows : List (ℤ × ℚ)) (startDay endDay : ℤ) :
    List (ℤ × ℚ) :=
  buildSeriesAux rows startDay (endDay + 1 - startDay).toNat

lemma buildSeriesAux_eq (rows : List (ℤ × ℚ)) (n : Nat) :
    ∀ s : ℤ, buildSeriesAux rows s n =
      (List.range n).map
        (fun (i : ℕ) => (s + (i : ℤ), totalsByDayLookup rows (s + (i : ℤ)))) := by
  induction n with
  | zero => intro s; rfl
  | succ n ih =>
      intro s
      rw [List.range_succ_eq_map, List.map_cons, List.map_map]
      show (s, totalsByDayLookup rows s) :: buildSeriesAux rows (s + 1) n = _
      congr 1
      · norm_num
      · rw [ih (s + 1)]
        apply List.map_congr_left
        intro i hi
        have hcast : s + 1 + (i : ℤ) = s + ((i + 1 : ℕ) : ℤ) := by
          push_cast
          ring
        simp only [Function.comp, Nat.succ_eq_add_one, hcast]

lemma lookup_eq_none_of_no_key {β : Type} (rows : List (ℤ × β)) (d : ℤ)
    (h : ∀ p ∈ rows, p.1 ≠ d) : List.lookup d rows = none := by
  induction rows with
  | nil => rfl
  | cons p ps ih =>
      obtain ⟨k, v⟩ := p
      have hk : (d == k) = false := by
        simp only [beq_eq_false_iff_ne, ne_eq]
        intro he
        exact h (k, v) (by simp) (by simp [he])
      simp only [List.lookup, hk]
      exact ih (fun q hq => h q (by simp [hq]))

lemma totalsByDayLookup_zero (rows : List (ℤ × ℚ)) (d : ℤ)
    (h : ∀ p ∈ rows, p.1 ≠ d) : totalsByDayLookup rows d = 0 := by
  unfold totalsByDayLookup
  rw [lookup_eq_none_of_no_key]
  · rfl
  · intro p hp
    exact h p (List.mem_reverse.mp hp)

/-- C7: for any day range `s ≤ e` and any sparse per-day totals, the
chart series has exactly one point per calendar day from `s` to `e`
inclusive, in ascending day order (the i-th point is day `s + i`), each
value being the sparse total with default 0; in particular any in-range
day absent from the totals appears with value 0. -/
theorem daily_series_gap_fill (rows : List (ℤ × ℚ)) (s e : ℤ)
    (h : s ≤ e) :
    build_daily_series rows s e =
      (List.range (e + 1 - s).toNat).map
        (fun (i : ℕ) => (s + (i : ℤ), totalsByDayLookup rows (s + (i : ℤ)))) ∧
    (build_daily_series rows s e).length = (e + 1 - s).toNat ∧
    (∀ d : ℤ, s ≤ d → d ≤ e → (∀ p ∈ rows, p.1 ≠ d) →
      (d, (0 : ℚ)) ∈ build_daily_series rows s e) := by
  have heq := buildSeriesAux_eq rows (e + 1 - s).toNat s
  refine ⟨heq, ?_, ?_⟩
  · rw [build_daily_series, heq]
    simp
  · intro d hds hde hnone
    rw [build_daily_series, heq]
    rw [List.mem_map]
    refine ⟨(d - s).toNat, ?_, ?_⟩
    · rw [List.mem_range]
      omega
    · have hcast : s + ((d - s).toNat : ℤ) = d := by omega
      rw [hcast, totalsByDayLookup_zero rows d hnone]

/-- C7 witness: a 5-day range (days 1..5) with entries only on day 2
(10.00) and day 4 (20.00) yields the filled series [0, 10, 0, 20, 0],
and day 3 appears with value 0. -/
theorem daily_series_gap_fill_witness :
    (1 : ℤ) ≤ 5 ∧
    (build_daily_series [(2, (10 : ℚ)), (4, 20)] 1 5).map Prod.snd =
      [0, 10, 0, 20, 0] ∧
    (build_daily_series [(2, (10 : ℚ)), (4, 20)] 1 5).length = 5 ∧
    ((3 : ℤ), (0 : ℚ)) ∈ build_daily_series [(2, (10 : ℚ)), (4, 20)] 1 5 := by
  have h := daily_series_gap_fill [(2, (10 : ℚ)), (4, 20)] 1 5 (by decide)
  refine ⟨by decide, by rfl, h.2.1, h.2.2 3 (by decide) (by decide) ?_⟩
  intro p hp
  simp only [List.mem_cons, List.not_mem_nil, or_false] at hp
  rcases hp with rfl | rfl <;> decide

/-- `sorted(...)` in `build_daily_chart_png`, modelled as insertion
sort: insert one element into a sorted list. -/
def insertSorted (x : ℚ) : List ℚ → List ℚ
  | [] => [x]
  | y :: ys => if x ≤ y then x :: y :: ys else y :: insertSorted x ys

/-- Ascending sort of a list of rationals (insertion sort). -/
def sortAsc : List ℚ → List ℚ
  | [] => []
  | y :: ys => insertSorted y (sortAsc ys)

/-- `positives = sorted([v for v in y_all if v > 0])` in
`build_daily_chart_png` (bot.py). -/
def positivesOf (y : List ℚ) : List ℚ :=
  sortAsc (y.filter (fun v => 0 < v))

/-- `median = positives[len(positives) // 2]` in `build_daily_chart_png`
(the upper median, as the source computes it). -/
def medianPositives (y : List ℚ) : ℚ :=
  (positivesOf y).getD ((positivesOf y).length / 2) 0

/-- `vmax = positives[-1]` in `build_daily_chart_png`. -/
def vmaxPositives (y : List ℚ) : ℚ :=
  ((positivesOf y).getLast?).getD 0

/-- The vertical-scale decision of `build_daily_chart_png`: symlog
(compressed) or linear. -/
inductive YScale where
  | linear
  | symlog
deriving DecidableEq

/-- The scale branch of `build_daily_chart_png` (bot.py): with no
positive values, linear; otherwise symlog exactly when `median > 0` and
`vmax / median >= 8`, else linear. -/
def chart_yscale (y : List ℚ) : YScale :=
  if (positivesOf y).isEmpty then .linear
  else if 0 < medianPositives y ∧ 8 ≤ vmaxPositives y / medianPositives y
    then .symlog
  else .linear

lemma mem_insertSorted {x a : ℚ} {l : List ℚ} :
    a ∈ insertSorted x l ↔ a = x ∨ a ∈ l := by
  induction l with
  | nil => simp [insertSorted]
  | cons y ys ih =>
      simp only [insertSorted]
      by_cases hxy : x ≤ y
      · simp [hxy]
      · simp only [hxy, if_false, List.mem_cons, ih]
        tauto

lemma mem_sortAsc {a : ℚ} {l : List ℚ} : a ∈ sortAsc l ↔ a ∈ l := by
  induction l with
  | nil => simp [sortAsc]
  | cons y ys ih =>
      simp only [sortAsc, mem_insertSorted, List.mem_cons, ih]

lemma mem_positivesOf {a : ℚ} {y : List ℚ} :
    a ∈ positivesOf y ↔ a ∈ y ∧ 0 < a := by
  unfold positivesOf
  rw [mem_sortAsc, List.mem_filter]
  simp

lemma positivesOf_ne_nil {y : List ℚ} (h : ∃ v ∈ y, 0 < v) :
    positivesOf y ≠ [] := by
  obtain ⟨v, hv, hvpos⟩ := h
  exact List.ne_nil_of_mem (mem_positivesOf.mpr ⟨hv, hvpos⟩)

lemma medianPositives_mem {y : List ℚ} (h : positivesOf y ≠ []) :
    medianPositives y ∈ positivesOf y := by
  unfold medianPositives
  have hlen : (positivesOf y).length / 2 < (positivesOf y).length := by
    have := List.length_pos.mpr h
    omega
  rw [List.getD_eq_getElem?_getD, List.getElem?_eq_getElem hlen]
  exact List.getElem_mem hlen

lemma medianPositives_pos {y : List ℚ} (h : ∃ v ∈ y, 0 < v) :
    0 < medianPositives y :=
  (mem_positivesOf.mp (medianPositives_mem (positivesOf_ne_nil h))).2

/-- C8: for a daily series with at least one positive value, the chart
uses the compressed (symlog) scale iff the maximum positive value is at
least 8 times the (upper) median of the positive values; a series with
no positive value always uses the linear scale. -/
theorem yscale_heuristic (y : List ℚ) (h : ∃ v ∈ y, 0 < v) :
    (chart_yscale y = .symlog ↔
      8 ≤ vmaxPositives y / medianPositives y) ∧
    (∀ z : List ℚ, (∀ v ∈ z, v ≤ 0) → chart_yscale z = .linear) := by
  constructor
  · have hmed := medianPositives_pos h
    have hne : ¬ (positivesOf y).isEmpty = true := by
      simp only [List.isEmpty_iff]
      exact positivesOf_ne_nil h
    unfold chart_yscale
    rw [if_neg hne]
    constructor
    · intro hs
      by_cases hc : 0 < medianPositives y ∧
          8 ≤ vmaxPositives y / medianPositives y
      · exact hc.2
      · rw [if_neg hc] at hs
        cases hs
    · intro hr
      rw [if_pos ⟨hmed, hr⟩]
  · intro z hz
    have hfil : z.filter (fun v => 0 < v) = [] := by
      rw [List.filter_eq_nil_iff]
      intro a ha
      simp only [decide_eq_true_eq, not_lt]
      exact hz a ha
    unfold chart_yscale positivesOf
    rw [hfil]
    rfl

/-- C8 witness: the series [0, 5, 40, 3] has positives [3, 5, 40],
upper median 5 and maximum 40, so the symlog decision is equivalent to
8 ≤ 40 / 5; and a nonpositive series is linear. -/
theorem yscale_heuristic_witness :
    (∃ v ∈ ([0, 5, 40, 3] : List ℚ), 0 < v) ∧
    (chart_yscale [0, 5, 40, 3] = .symlog ↔
      8 ≤ vmaxPositives [0, 5, 40, 3] / medianPositives [0, 5, 40, 3]) ∧
    chart_yscale [0, -1] = .linear := by
  have hex : ∃ v ∈ ([0, 5, 40, 3] : List ℚ), 0 < v :=
    ⟨5, by norm_num, by norm_num⟩
  have h := yscale_heuristic [0, 5, 40, 3] hex
  refine ⟨hex, h.1, h.2 [0, -1] ?_⟩
  intro v hv
  simp only [List.mem_cons, List.not_mem_nil, or_false] at hv
  rcases hv with rfl | rfl <;> norm_num

end ExpenseBot
